import Mathlib

/-!
Verification of the DeviceChecklistHubV2 progress-synchronization model.

The definitions below are a shallow embedding of the JavaScript sources:
the `ChecklistWorkspace` custom element of the Supabase-backed application
(progress loading, the check/uncheck toggle write path, realtime payload
handling, table sorting) and the admin upload/delete flows
(`replaceDevicesForChecklist`, `upsertChecklistFromObject`,
`deleteChecklistAndDevices`).  JavaScript `Set` objects are modelled as
insertion-ordered duplicate-free lists, `localStorage` as a partial map
from keys to snapshots, and the hosted database as explicit row lists.
-/

namespace DeviceChecklistHub

/-- A per-checklist snapshot stored in the local mirror (`localStorage`):
the JSON blob written by `saveInspectedState`. -/
structure Snapshot where
  checked : List String
  history : List String
deriving Repr, DecidableEq

/-- The local mirror: `localStorage`, a partial map from string keys to
stored snapshots. -/
def Mirror : Type := String → Option Snapshot

/-- Key used by the workspace for a checklist's snapshot:
`checklistState_${this.checklistKey}`. -/
def mirrorKey (checklistKey : String) : String :=
  "checklistState_" ++ checklistKey

/-- `localStorage.setItem`: overwrite one entry, leave the rest. -/
def mirrorSet (m : Mirror) (k : String) (v : Snapshot) : Mirror :=
  fun k' => if k' = k then some v else m k'

/-- In-memory synchronizer state: `this.state` of `ChecklistWorkspace`.
`checkedDevices` models the JavaScript `Set` (insertion-ordered, no
duplicates inserted), `checkHistory` the undo history array. -/
structure WorkspaceState where
  checkedDevices : List String
  checkHistory : List String
deriving Repr, DecidableEq

/-- JavaScript `Set.prototype.add`: append if not already present. -/
def setAdd (s : List String) (d : String) : List String :=
  if s.contains d then s else s ++ [d]

/-- JavaScript `Set.prototype.delete`: remove the entry if present,
preserving the order of the others. -/
def setDelete (s : List String) (d : String) : List String :=
  s.filter (fun x => x != d)

/-- JavaScript `new Set(arr)`: deduplicate keeping first occurrences. -/
def setFromList (l : List String) : List String :=
  l.foldl setAdd []

/-- The uncheck branch of `handleRowClick`:
`historyIndex = history.lastIndexOf(deviceId); if (historyIndex > -1)
history.splice(historyIndex, 1)` — remove the last matching occurrence,
or leave the list unchanged when there is none. -/
def removeLastOccurrence (l : List String) (d : String) : List String :=
  (l.reverse.erase d).reverse

/-- The state mutation performed by `handleRowClick` (identical in
`app.js` and the Supabase workspace): on check, add to the set and append
to history; on uncheck, delete from the set and splice out the last
matching history occurrence. -/
def applyToggle (st : WorkspaceState) (deviceId : String) (isInspected : Bool) :
    WorkspaceState :=
  if isInspected then
    { checkedDevices := setAdd st.checkedDevices deviceId
      checkHistory := st.checkHistory ++ [deviceId] }
  else
    { checkedDevices := setDelete st.checkedDevices deviceId
      checkHistory := removeLastOccurrence st.checkHistory deviceId }

/-- `saveInspectedState`: write-through of the current state to the local
mirror under this checklist's key. -/
def saveInspectedState (checklistKey : String) (st : WorkspaceState) (m : Mirror) :
    Mirror :=
  mirrorSet m (mirrorKey checklistKey) ⟨st.checkedDevices, st.checkHistory⟩

/-- `handleRowClick` up to rendering: mutate the local state, then
synchronously persist the snapshot to the local mirror
(`this.saveInspectedState()`). -/
def handleRowClick (checklistKey : String) (st : WorkspaceState) (m : Mirror)
    (deviceId : String) (isInspected : Bool) : WorkspaceState × Mirror :=
  let st' := applyToggle st deviceId isInspected
  (st', saveInspectedState checklistKey st' m)

end DeviceChecklistHub

namespace DeviceChecklistHub

theorem setAdd_of_not_mem {s : List String} {d : String} (h : d ∉ s) :
    setAdd s d = s ++ [d] := by
  unfold setAdd
  rw [if_neg]
  exact fun hc => h (List.elem_iff.mp hc)

theorem setDelete_append_singleton_self {s : List String} {d : String} (h : d ∉ s) :
    setDelete (s ++ [d]) d = s := by
  unfold setDelete
  rw [List.filter_append]
  have h1 : s.filter (fun x => x != d) = s := by
    apply List.filter_eq_self.2
    intro a ha
    simp only [bne_iff_ne, ne_eq, decide_eq_true_eq]
    exact fun had => h (had ▸ ha)
  have h2 : [d].filter (fun x => x != d) = [] := by simp
  rw [h1, h2, List.append_nil]

theorem removeLastOccurrence_append_self (l : List String) (d : String) :
    removeLastOccurrence (l ++ [d]) d = l := by
  unfold removeLastOccurrence
  rw [List.reverse_append]
  simp [List.erase_cons_head]

/-- Splicing at `lastIndexOf` removes exactly the last matching
occurrence: any earlier occurrences of `d` (inside `l₁`) survive. -/
theorem removeLastOccurrence_eq_of_last {l₁ l₂ : List String} {d : String}
    (h : d ∉ l₂) :
    removeLastOccurrence (l₁ ++ d :: l₂) d = l₁ ++ l₂ := by
  unfold removeLastOccurrence
  rw [List.reverse_append, List.reverse_cons, List.append_assoc]
  rw [List.erase_append_right _ (by simpa using h)]
  simp [List.erase_cons_head]

theorem contains_eq_false_of_not_mem {s : List String} {d : String} (h : d ∉ s) :
    s.contains d = false := by
  rw [Bool.eq_false_iff]
  exact fun hc => h (List.elem_iff.mp hc)

end DeviceChecklistHub

namespace DeviceChecklistHub

/-- JavaScript truthiness of a `device_uid` value as tested by
`if (!row.device_uid)`: `null`/`undefined` and the empty string are falsy. -/
def uidTruthy : Option String → Bool
  | none => false
  | some s => !(s == "")

/-- The new row image carried by a realtime change notification
(`payload.new`), projected to the fields the handler reads. -/
structure RealtimeRow where
  checklist_id : String
  device_uid : Option String
  checked : Bool
deriving Repr, DecidableEq

/-- `handleRealtimePayload`: ignore payloads without a new row, for a
different checklist, or without a usable `device_uid`; otherwise mirror
the remote checked flag into the local set (never into the history) and
write the snapshot through to the local mirror. -/
def handleRealtimePayload (checklistKey : String) (st : WorkspaceState) (m : Mirror)
    (payloadNew : Option RealtimeRow) : WorkspaceState × Mirror :=
  match payloadNew with
  | none => (st, m)
  | some row =>
    if row.checklist_id != checklistKey then (st, m)
    else
      match row.device_uid with
      | none => (st, m)
      | some deviceId =>
        if deviceId == "" then (st, m)
        else
          let wasChecked := st.checkedDevices.contains deviceId
          let st' :=
            if row.checked then
              if !wasChecked then
                { st with checkedDevices := setAdd st.checkedDevices deviceId }
              else st
            else
              if wasChecked then
                { st with checkedDevices := setDelete st.checkedDevices deviceId }
              else st
          (st', saveInspectedState checklistKey st' m)

/-- One persisted `device_progress` row. -/
structure DeviceProgressRow where
  checklist_id : String
  device_uid : String
  checked : Bool
  updated_at : Nat
deriving Repr, DecidableEq

/-- Upsert with `onConflict: 'checklist_id,device_uid'`: replace the
matching row if one exists, otherwise insert. -/
def upsertProgressRow (t : List DeviceProgressRow) (r : DeviceProgressRow) :
    List DeviceProgressRow :=
  if t.any (fun x => x.checklist_id == r.checklist_id && x.device_uid == r.device_uid) then
    t.map (fun x =>
      if x.checklist_id == r.checklist_id && x.device_uid == r.device_uid then r else x)
  else t ++ [r]

/-- `pushDeviceProgressToSupabase`: attempt the upsert; a returned error
leaves the remote table unchanged and surfaces a non-fatal warning toast
(`Could not sync this device to the cloud. Local state only.`). The
function never throws back to the caller. -/
def pushDeviceProgressToSupabase (checklistKey : String)
    (remote : List DeviceProgressRow) (deviceId : String) (checked : Bool)
    (now : Nat) (upsertFails : Bool) : List DeviceProgressRow × Bool :=
  if checklistKey == "" then (remote, false)
  else if upsertFails then (remote, true)
  else (upsertProgressRow remote ⟨checklistKey, deviceId, checked, now⟩, false)

/-- A complete user check/uncheck action as performed by `handleRowClick`:
synchronous local mutation and mirror write-through, followed by the
asynchronous upsert whose result influences nothing but a warning toast. -/
def userToggleAction (checklistKey : String) (st : WorkspaceState) (m : Mirror)
    (remote : List DeviceProgressRow) (deviceId : String) (isInspected : Bool)
    (now : Nat) (upsertFails : Bool) :
    WorkspaceState × Mirror × List DeviceProgressRow × Bool :=
  let local_ := handleRowClick checklistKey st m deviceId isInspected
  let push := pushDeviceProgressToSupabase checklistKey remote deviceId isInspected
    now upsertFails
  (local_.1, local_.2, push.1, push.2)

end DeviceChecklistHub

namespace DeviceChecklistHub

/-- C4: a live notification with `checked = true` for a uid of the active
checklist that is not yet in the checked-set appends that uid to the
checked-set and leaves the check history unchanged in length and
contents. -/
theorem realtime_check_adds_to_set_only (key : String) (st : WorkspaceState)
    (m : Mirror) (row : RealtimeRow) (u : String) (hk : row.checklist_id = key)
    (hu : row.device_uid = some u) (hne : u ≠ "") (hc : row.checked = true)
    (hmem : u ∉ st.checkedDevices) :
    (handleRealtimePayload key st m (some row)).1.checkedDevices
        = st.checkedDevices ++ [u] ∧
    (handleRealtimePayload key st m (some row)).1.checkHistory
        = st.checkHistory := by
  have hguard : (u == "") = false := by simpa using hne
  have hcont := contains_eq_false_of_not_mem hmem
  constructor <;>
    simp [handleRealtimePayload, hk, hu, hc, hguard, hcont, hmem,
      setAdd_of_not_mem hmem]

theorem realtime_check_adds_to_set_only_witness :
    (RealtimeRow.mk "k" (some "u1") true).checklist_id = "k" ∧
    (RealtimeRow.mk "k" (some "u1") true).device_uid = some "u1" ∧
    ("u1" : String) ≠ "" ∧
    (RealtimeRow.mk "k" (some "u1") true).checked = true ∧
    "u1" ∉ (["u0"] : List String) ∧
    (handleRealtimePayload "k" ⟨["u0"], ["u0"]⟩ (fun _ => none)
        (some (RealtimeRow.mk "k" (some "u1") true))).1.checkedDevices
      = ["u0", "u1"] ∧
    (handleRealtimePayload "k" ⟨["u0"], ["u0"]⟩ (fun _ => none)
        (some (RealtimeRow.mk "k" (some "u1") true))).1.checkHistory
      = ["u0"] := by
  have h := realtime_check_adds_to_set_only "k" ⟨["u0"], ["u0"]⟩ (fun _ => none)
    (RealtimeRow.mk "k" (some "u1") true) "u1" rfl rfl (by decide) rfl (by decide)
  exact ⟨rfl, rfl, by decide, rfl, by decide, h.1, h.2⟩

/-- C6: a live notification whose row belongs to a different checklist id
than the active one leaves the synchronizer state and the local mirror
entirely unchanged. -/
theorem realtime_other_checklist_ignored (key : String) (st : WorkspaceState)
    (m : Mirror) (row : RealtimeRow) (h : row.checklist_id ≠ key) :
    handleRealtimePayload key st m (some row) = (st, m) := by
  simp [handleRealtimePayload, h]

theorem realtime_other_checklist_ignored_witness :
    ((RealtimeRow.mk "other" (some "u1") true).checklist_id ≠ "k") ∧
    handleRealtimePayload "k" ⟨["u0"], ["u0"]⟩ (fun _ => none)
        (some (RealtimeRow.mk "other" (some "u1") true))
      = (⟨["u0"], ["u0"]⟩, (fun _ => none)) :=
  ⟨by decide, realtime_other_checklist_ignored "k" ⟨["u0"], ["u0"]⟩ (fun _ => none)
    (RealtimeRow.mk "other" (some "u1") true) (by decide)⟩

/-- C5: when the asynchronous upsert fails after a user toggle, the local
mutation is kept (state and mirror equal those of a successful run, and
the mirror holds the post-toggle snapshot), the remote table is
unchanged, and the only effect of the failure is a non-fatal warning. -/
theorem upsert_failure_keeps_local_state (key : String) (st : WorkspaceState)
    (m : Mirror) (remote : List DeviceProgressRow) (d : String) (b : Bool)
    (now : Nat) (hkey : key ≠ "") :
    (userToggleAction key st m remote d b now true).1 = applyToggle st d b ∧
    (userToggleAction key st m remote d b now true).2.1 (mirrorKey key)
      = some ⟨(applyToggle st d b).checkedDevices, (applyToggle st d b).checkHistory⟩ ∧
    (userToggleAction key st m remote d b now true).2.2.1 = remote ∧
    (userToggleAction key st m remote d b now true).2.2.2 = true ∧
    (userToggleAction key st m remote d b now true).1
      = (userToggleAction key st m remote d b now false).1 ∧
    (userToggleAction key st m remote d b now true).2.1
      = (userToggleAction key st m remote d b now false).2.1 := by
  have hguard : (key == "") = false := by simpa using hkey
  refine ⟨rfl, ?_, ?_, ?_, rfl, rfl⟩
  · simp [userToggleAction, handleRowClick, saveInspectedState, mirrorSet]
  · simp [userToggleAction, pushDeviceProgressToSupabase, hguard]
  · simp [userToggleAction, pushDeviceProgressToSupabase, hguard]

theorem upsert_failure_keeps_local_state_witness :
    ("k" : String) ≠ "" ∧
    (userToggleAction "k" ⟨[], []⟩ (fun _ => none) [] "d" true 7 true).1
      = applyToggle ⟨[], []⟩ "d" true ∧
    (userToggleAction "k" ⟨[], []⟩ (fun _ => none) [] "d" true 7 true).2.1
        (mirrorKey "k")
      = some ⟨(applyToggle ⟨[], []⟩ "d" true).checkedDevices,
              (applyToggle ⟨[], []⟩ "d" true).checkHistory⟩ ∧
    (userToggleAction "k" ⟨[], []⟩ (fun _ => none) [] "d" true 7 true).2.2.1 = [] ∧
    (userToggleAction "k" ⟨[], []⟩ (fun _ => none) [] "d" true 7 true).2.2.2 = true := by
  have h := upsert_failure_keeps_local_state "k" ⟨[], []⟩ (fun _ => none) [] "d"
    true 7 (by decide)
  exact ⟨by decide, h.1, h.2.1, h.2.2.1, h.2.2.2.1⟩

/-- C2: checking a device and then unchecking it through the toggle write
path restores the workspace state exactly: the checked-set returns to its
pre-toggle value and the history loses exactly the occurrence that the
check appended; more generally the uncheck splice removes only the last
matching occurrence of the device id, never earlier ones. -/
theorem check_then_uncheck_roundtrip (key : String) (st : WorkspaceState)
    (m : Mirror) (d : String) (h : d ∉ st.checkedDevices) :
    (handleRowClick key (handleRowClick key st m d true).1
        (handleRowClick key st m d true).2 d false).1 = st ∧
    ∀ l₁ l₂ : List String, d ∉ l₂ →
      removeLastOccurrence (l₁ ++ d :: l₂) d = l₁ ++ l₂ := by
  refine ⟨?_, fun l₁ l₂ hl => removeLastOccurrence_eq_of_last hl⟩
  show applyToggle (applyToggle st d true) d false = st
  have e1 : applyToggle st d true
      = ⟨setAdd st.checkedDevices d, st.checkHistory ++ [d]⟩ := rfl
  rw [e1]
  show WorkspaceState.mk
      (setDelete (setAdd st.checkedDevices d) d)
      (removeLastOccurrence (st.checkHistory ++ [d]) d) = st
  rw [setAdd_of_not_mem h, setDelete_append_singleton_self h,
    removeLastOccurrence_append_self]

theorem check_then_uncheck_roundtrip_witness :
    ("a" ∉ (["b"] : List String)) ∧
    (handleRowClick "k"
        (handleRowClick "k" ⟨["b"], ["a", "x"]⟩ (fun _ => none) "a" true).1
        (handleRowClick "k" ⟨["b"], ["a", "x"]⟩ (fun _ => none) "a" true).2
        "a" false).1
      = ⟨["b"], ["a", "x"]⟩ ∧
    removeLastOccurrence ["a", "z", "a", "w"] "a" = ["a", "z", "w"] := by
  have h := check_then_uncheck_roundtrip "k" ⟨["b"], ["a", "x"]⟩ (fun _ => none)
    "a" (by decide)
  exact ⟨by decide, h.1, h.2 ["a", "z"] ["w"] (by decide)⟩

end DeviceChecklistHub

namespace DeviceChecklistHub

/-- One row of the `device_progress` result set as projected by
`loadProgressFromSupabase` (`select device_uid, checked, updated_at`).
Timestamps are modelled as naturals preserving the order of
`new Date(row.updated_at)`. -/
structure ProgressRow where
  device_uid : Option String
  checked : Bool
  updated_at : Nat
deriving Repr, DecidableEq

/-- The rows the loader folds over:
`data.filter(row => row.checked).sort((a, b) => new Date(a.updated_at) - new Date(b.updated_at))`.
JavaScript `Array.prototype.sort` is stable, which `List.insertionSort`
with a non-strict comparison reproduces. -/
def sortedCheckedRows (rows : List ProgressRow) : List ProgressRow :=
  List.insertionSort (fun a b => a.updated_at ≤ b.updated_at)
    (rows.filter (fun r => r.checked))

/-- One iteration of the derivation loop:
`if (!row.device_uid) continue; checkedSet.add(...); history.push(...)`. -/
def deriveStep (st : WorkspaceState) (row : ProgressRow) : WorkspaceState :=
  match row.device_uid with
  | none => st
  | some uid =>
    if uid == "" then st
    else ⟨setAdd st.checkedDevices uid, st.checkHistory ++ [uid]⟩

/-- The state derived from a non-empty remote result set. -/
def deriveProgress (rows : List ProgressRow) : WorkspaceState :=
  (sortedCheckedRows rows).foldl deriveStep ⟨[], []⟩

/-- `loadInspectedState`: restore from the local mirror entry for this
checklist (`new Set(parsed.checked || [])` deduplicates), or reset to
empty when the mirror has no entry. -/
def loadInspectedState (checklistKey : String) (m : Mirror) : WorkspaceState :=
  match m (mirrorKey checklistKey) with
  | some snap => ⟨setFromList snap.checked, snap.history⟩
  | none => ⟨[], []⟩

/-- Result of the `device_progress` fetch: a result set, or a thrown or
returned error. -/
inductive FetchResult where
  | ok (rows : List ProgressRow)
  | err
deriving Repr, DecidableEq

/-- Observable outcome of `loadProgressFromSupabase`: the new workspace
state, the local mirror afterwards, and whether the user-visible
`Could not load shared progress` warning was emitted. -/
structure LoadOutcome where
  state : WorkspaceState
  mirror : Mirror
  warned : Bool

/-- `loadProgressFromSupabase`: on a missing key, a fetch error, or an
empty result set, fall back to the local mirror (warning only on error);
on a non-empty result set, derive the state from the checked rows in
ascending `updated_at` order and overwrite the local mirror with it. -/
def loadProgressFromSupabase (checklistKey : String) (m : Mirror)
    (fetch : FetchResult) : LoadOutcome :=
  if checklistKey == "" then ⟨loadInspectedState checklistKey m, m, false⟩
  else
    match fetch with
    | .err => ⟨loadInspectedState checklistKey m, m, true⟩
    | .ok rows =>
      if rows.isEmpty then ⟨loadInspectedState checklistKey m, m, false⟩
      else
        let st := deriveProgress rows
        ⟨st, saveInspectedState checklistKey st m, false⟩

/-- The uid a derivation-loop iteration contributes, if any. -/
def truthyUid (r : ProgressRow) : Option String :=
  match r.device_uid with
  | none => none
  | some u => if u == "" then none else some u

theorem truthyUid_eq_some {r : ProgressRow} {u : String} :
    truthyUid r = some u ↔ r.device_uid = some u ∧ u ≠ "" := by
  unfold truthyUid
  cases hr : r.device_uid with
  | none => simp
  | some v =>
    show (if (v == "") = true then none else some v) = some u
      ↔ some v = some u ∧ u ≠ ""
    by_cases hv : v = ""
    · subst hv
      simp [eq_comm]
    · rw [if_neg (by simpa using hv)]
      constructor
      · intro h
        have hvu := Option.some.inj h
        subst hvu
        exact ⟨rfl, hv⟩
      · exact fun h => h.1

theorem mem_setAdd {s : List String} {d u : String} :
    u ∈ setAdd s d ↔ u ∈ s ∨ u = d := by
  unfold setAdd
  split
  · next hc =>
    have hd : d ∈ s := List.elem_iff.mp hc
    constructor
    · exact Or.inl
    · rintro (h | rfl)
      · exact h
      · exact hd
  · simp

theorem deriveStep_eq_of_truthyUid_none {st : WorkspaceState} {r : ProgressRow}
    (h : truthyUid r = none) : deriveStep st r = st := by
  unfold deriveStep
  unfold truthyUid at h
  cases hr : r.device_uid with
  | none => rfl
  | some u =>
    rw [hr] at h
    by_cases hu : (u == "") = true
    · simp [hu]
    · simp [hu] at h

theorem foldl_deriveStep_history :
    ∀ (l : List ProgressRow) (st : WorkspaceState),
      (l.foldl deriveStep st).checkHistory = st.checkHistory ++ l.filterMap truthyUid
  | [], st => by simp
  | r :: l, st => by
    rw [List.foldl_cons, foldl_deriveStep_history l, List.filterMap_cons]
    cases hr : r.device_uid with
    | none => simp [deriveStep, truthyUid, hr]
    | some u =>
      by_cases hu : (u == "") = true
      · simp [deriveStep, truthyUid, hr, hu]
      · simp [deriveStep, truthyUid, hr, hu]

theorem foldl_deriveStep_mem (u : String) :
    ∀ (l : List ProgressRow) (st : WorkspaceState),
      u ∈ (l.foldl deriveStep st).checkedDevices ↔
        u ∈ st.checkedDevices ∨ u ∈ l.filterMap truthyUid
  | [], st => by simp
  | r :: l, st => by
    rw [List.foldl_cons, foldl_deriveStep_mem u l, List.filterMap_cons]
    cases hr : r.device_uid with
    | none => simp [deriveStep, truthyUid, hr]
    | some v =>
      by_cases hv : v = ""
      · subst hv
        simp [deriveStep, truthyUid, hr]
      · have htu : truthyUid r = some v := truthyUid_eq_some.mpr ⟨hr, hv⟩
        have hds : deriveStep st r
            = ⟨setAdd st.checkedDevices v, st.checkHistory ++ [v]⟩ := by
          simp [deriveStep, hr, hv]
        rw [htu, hds]
        show u ∈ setAdd st.checkedDevices v ∨ _ ↔ _
        rw [mem_setAdd]
        simp only [List.mem_cons]
        tauto

theorem foldl_deriveStep_id :
    ∀ (l : List ProgressRow) (st : WorkspaceState),
      (∀ r ∈ l, truthyUid r = none) → l.foldl deriveStep st = st
  | [], _, _ => rfl
  | r :: l, st, h => by
    rw [List.foldl_cons, deriveStep_eq_of_truthyUid_none (h r (by simp))]
    exact foldl_deriveStep_id l st (fun x hx => h x (by simp [hx]))

end DeviceChecklistHub

namespace DeviceChecklistHub

/-- C1: for a non-empty `device_progress` result set, the loader derives
the checked-set from exactly the rows with `checked = true` (that carry a
usable `device_uid`), derives the history as those uids in ascending
`updated_at` order (stable sort of the checked rows), and overwrites the
local mirror with the derived snapshot. -/
theorem load_nonempty_derives_from_remote (key : String) (m : Mirror)
    (rows : List ProgressRow) (hkey : key ≠ "") (hne : rows ≠ []) :
    (∀ u : String,
      u ∈ (loadProgressFromSupabase key m (.ok rows)).state.checkedDevices ↔
        (u ≠ "" ∧ ∃ r ∈ rows, r.checked = true ∧ r.device_uid = some u)) ∧
    (loadProgressFromSupabase key m (.ok rows)).state.checkHistory
      = (sortedCheckedRows rows).filterMap truthyUid ∧
    List.Sorted (fun a b => a ≤ b)
      ((sortedCheckedRows rows).map (fun r => r.updated_at)) ∧
    (loadProgressFromSupabase key m (.ok rows)).mirror
      = saveInspectedState key (loadProgressFromSupabase key m (.ok rows)).state m := by
  have hguard : (key == "") = false := by simpa using hkey
  have hempty : rows.isEmpty = false := by
    cases rows with
    | nil => exact absurd rfl hne
    | cons a l => rfl
  have hout : loadProgressFromSupabase key m (.ok rows)
      = ⟨deriveProgress rows, saveInspectedState key (deriveProgress rows) m, false⟩ := by
    simp [loadProgressFromSupabase, hguard, hempty]
  refine ⟨?_, ?_, ?_, ?_⟩
  · intro u
    rw [hout]
    show u ∈ (deriveProgress rows).checkedDevices ↔ _
    unfold deriveProgress
    rw [foldl_deriveStep_mem]
    simp only [List.mem_filterMap, truthyUid_eq_some, sortedCheckedRows,
      List.mem_insertionSort, List.mem_filter]
    constructor
    · rintro (h | ⟨r, ⟨⟨hrm, hrc⟩, hru, hu⟩⟩)
      · simp at h
      · exact ⟨hu, r, hrm, hrc, hru⟩
    · rintro ⟨hu, r, hrm, hrc, hru⟩
      exact Or.inr ⟨r, ⟨hrm, hrc⟩, hru, hu⟩
  · rw [hout]
    show (deriveProgress rows).checkHistory = _
    unfold deriveProgress
    rw [foldl_deriveStep_history]
    rfl
  · haveI : IsTotal ProgressRow (fun a b => a.updated_at ≤ b.updated_at) :=
      ⟨fun a b => Nat.le_total a.updated_at b.updated_at⟩
    haveI : IsTrans ProgressRow (fun a b => a.updated_at ≤ b.updated_at) :=
      ⟨fun _ _ _ hab hbc => Nat.le_trans hab hbc⟩
    have hs := List.sorted_insertionSort
      (fun a b => a.updated_at ≤ b.updated_at) (rows.filter (fun r => r.checked))
    exact List.Pairwise.map _ (fun _ _ h => h) hs
  · rw [hout]

theorem load_nonempty_derives_from_remote_witness :
    ("k" : String) ≠ "" ∧
    ([ProgressRow.mk (some "uidB") true 20, ProgressRow.mk (some "uidA") true 10]
      : List ProgressRow) ≠ [] ∧
    (loadProgressFromSupabase "k" (fun _ => none)
        (.ok [ProgressRow.mk (some "uidB") true 20,
              ProgressRow.mk (some "uidA") true 10])).state.checkHistory
      = ["uidA", "uidB"] ∧
    (loadProgressFromSupabase "k" (fun _ => none)
        (.ok [ProgressRow.mk (some "uidB") true 20,
              ProgressRow.mk (some "uidA") true 10])).mirror
      = saveInspectedState "k"
          (loadProgressFromSupabase "k" (fun _ => none)
            (.ok [ProgressRow.mk (some "uidB") true 20,
                  ProgressRow.mk (some "uidA") true 10])).state (fun _ => none) := by
  have h := load_nonempty_derives_from_remote "k" (fun _ => none)
    [ProgressRow.mk (some "uidB") true 20, ProgressRow.mk (some "uidA") true 10]
    (by decide) (by decide)
  refine ⟨by decide, by decide, ?_, h.2.2.2⟩
  rw [h.2.1]
  decide

/-- C3: on a fetch error the synchronizer falls back to the local mirror
and emits the user-visible warning; on an empty result set it falls back
silently; in both cases the mirror is left untouched, and the fallback
state is the mirror entry for the checklist (or empty when absent). The
loader returns normally in every case — no failure escapes it. -/
theorem load_failure_or_empty_falls_back (key : String) (m : Mirror)
    (hkey : key ≠ "") :
    (loadProgressFromSupabase key m .err).state = loadInspectedState key m ∧
    (loadProgressFromSupabase key m .err).mirror = m ∧
    (loadProgressFromSupabase key m .err).warned = true ∧
    (loadProgressFromSupabase key m (.ok [])).state = loadInspectedState key m ∧
    (loadProgressFromSupabase key m (.ok [])).mirror = m ∧
    (loadProgressFromSupabase key m (.ok [])).warned = false ∧
    (∀ snap, m (mirrorKey key) = some snap →
      loadInspectedState key m = ⟨setFromList snap.checked, snap.history⟩) ∧
    (m (mirrorKey key) = none → loadInspectedState key m = ⟨[], []⟩) := by
  have hguard : (key == "") = false := by simpa using hkey
  refine ⟨?_, ?_, ?_, ?_, ?_, ?_, ?_, ?_⟩
  · simp [loadProgressFromSupabase, hguard]
  · simp [loadProgressFromSupabase, hguard]
  · simp [loadProgressFromSupabase, hguard]
  · simp [loadProgressFromSupabase, hguard]
  · simp [loadProgressFromSupabase, hguard]
  · simp [loadProgressFromSupabase, hguard]
  · intro snap hsnap
    simp [loadInspectedState, hsnap]
  · intro hnone
    simp [loadInspectedState, hnone]

/-- Mirror used by concrete fallback scenarios: one stored snapshot for
checklist `k`, with a duplicated id in its checked array. -/
def mirrorWithEntry : Mirror :=
  fun k => if k = mirrorKey "k" then some ⟨["a", "a", "b"], ["a"]⟩ else none

theorem load_failure_or_empty_falls_back_witness :
    ("k" : String) ≠ "" ∧
    (loadProgressFromSupabase "k" mirrorWithEntry .err).state
      = loadInspectedState "k" mirrorWithEntry ∧
    (loadProgressFromSupabase "k" mirrorWithEntry .err).warned = true ∧
    (loadProgressFromSupabase "k" mirrorWithEntry (.ok [])).state
      = loadInspectedState "k" mirrorWithEntry ∧
    mirrorWithEntry (mirrorKey "k") = some ⟨["a", "a", "b"], ["a"]⟩ ∧
    loadInspectedState "k" mirrorWithEntry
      = ⟨setFromList ["a", "a", "b"], ["a"]⟩ := by
  have h := load_failure_or_empty_falls_back "k" mirrorWithEntry (by decide)
  have hsnap : mirrorWithEntry (mirrorKey "k") = some ⟨["a", "a", "b"], ["a"]⟩ := by
    simp [mirrorWithEntry]
  exact ⟨by decide, h.1, h.2.2.1, h.2.2.2.1, hsnap,
    h.2.2.2.2.2.2.1 ⟨["a", "a", "b"], ["a"]⟩ hsnap⟩

/-- C10: a non-empty result set in which no row is checked does not fall
back to the mirror: the loader takes the remote-authoritative path,
producing an empty checked-set and history and overwriting the mirror
entry with that empty snapshot, without warning; and rows without a
usable `device_uid` contribute nothing to the derived state. -/
theorem load_all_unchecked_remote_authoritative (key : String) (m : Mirror)
    (rows : List ProgressRow) (hkey : key ≠ "") (hne : rows ≠ []) :
    ((∀ r ∈ rows, r.checked = false) →
      (loadProgressFromSupabase key m (.ok rows)).state = ⟨[], []⟩ ∧
      (loadProgressFromSupabase key m (.ok rows)).mirror (mirrorKey key)
        = some ⟨[], []⟩ ∧
      (loadProgressFromSupabase key m (.ok rows)).warned = false) ∧
    ((∀ r ∈ rows, uidTruthy r.device_uid = false) →
      (loadProgressFromSupabase key m (.ok rows)).state = ⟨[], []⟩) := by
  have hguard : (key == "") = false := by simpa using hkey
  have hempty : rows.isEmpty = false := by
    cases rows with
    | nil => exact absurd rfl hne
    | cons a l => rfl
  have hout : loadProgressFromSupabase key m (.ok rows)
      = ⟨deriveProgress rows, saveInspectedState key (deriveProgress rows) m, false⟩ := by
    simp [loadProgressFromSupabase, hguard, hempty]
  constructor
  · intro hall
    have hfilter : rows.filter (fun r => r.checked) = [] := by
      rw [List.filter_eq_nil_iff]
      intro r hr
      simp [hall r hr]
    have hstate : deriveProgress rows = ⟨[], []⟩ := by
      unfold deriveProgress sortedCheckedRows
      rw [hfilter]
      rfl
    refine ⟨?_, ?_, ?_⟩
    · rw [hout, hstate]
    · rw [hout, hstate]
      show mirrorSet m (mirrorKey key) ⟨[], []⟩ (mirrorKey key) = some ⟨[], []⟩
      simp [mirrorSet]
    · rw [hout]
  · intro hall
    have hsorted : ∀ r ∈ sortedCheckedRows rows, truthyUid r = none := by
      intro r hr
      have hrm : r ∈ rows := by
        have := (List.mem_insertionSort _).mp hr
        exact (List.mem_filter.mp this).1
      have hu := hall r hrm
      unfold truthyUid
      cases hdr : r.device_uid with
      | none => rfl
      | some v =>
        rw [hdr] at hu
        unfold uidTruthy at hu
        simp only [Bool.not_eq_false'] at hu
        simp [hu]
    rw [hout]
    show deriveProgress rows = ⟨[], []⟩
    unfold deriveProgress
    exact foldl_deriveStep_id _ _ hsorted

theorem load_all_unchecked_remote_authoritative_witness :
    ("k" : String) ≠ "" ∧
    ([ProgressRow.mk (some "u") false 3] : List ProgressRow) ≠ [] ∧
    (loadProgressFromSupabase "k" mirrorWithEntry
        (.ok [ProgressRow.mk (some "u") false 3])).state = ⟨[], []⟩ ∧
    (loadProgressFromSupabase "k" mirrorWithEntry
        (.ok [ProgressRow.mk (some "u") false 3])).mirror (mirrorKey "k")
      = some ⟨[], []⟩ ∧
    ([ProgressRow.mk none true 1, ProgressRow.mk (some "") true 2]
      : List ProgressRow) ≠ [] ∧
    (loadProgressFromSupabase "k" mirrorWithEntry
        (.ok [ProgressRow.mk none true 1,
              ProgressRow.mk (some "") true 2])).state = ⟨[], []⟩ := by
  have h1 := load_all_unchecked_remote_authoritative "k" mirrorWithEntry
    [ProgressRow.mk (some "u") false 3] (by decide) (by decide)
  have h2 := load_all_unchecked_remote_authoritative "k" mirrorWithEntry
    [ProgressRow.mk none true 1, ProgressRow.mk (some "") true 2]
    (by decide) (by decide)
  have ha := h1.1 (by intro r hr; simp at hr; simp [hr])
  have hb := h2.2 (by
    intro r hr
    simp only [List.mem_cons, List.mem_singleton] at hr
    rcases hr with rfl | rfl | h
    · rfl
    · rfl
    · simp at h)
  exact ⟨by decide, by decide, ha.1, ha.2.1, by decide, hb⟩

end DeviceChecklistHub

namespace DeviceChecklistHub

/-- Sort keys offered by the workspace sort select
(`address-asc` … `serialNumber-desc`). -/
inductive SortKey where
  | address
  | messages
  | deviceType
  | serialNumber
deriving Repr, DecidableEq

/-- A device as held by the workspace after loading (all compared fields
reach the comparator through `(a[key] ?? '').toString()`). -/
structure WDevice where
  loop : String
  address : String
  model : String
  deviceType : String
  serialNumber : String
  messages : String
deriving Repr, DecidableEq

def sortField : SortKey → WDevice → String
  | .address, d => d.address
  | .messages, d => d.messages
  | .deviceType, d => d.deviceType
  | .serialNumber, d => d.serialNumber

/-- JavaScript `toLowerCase()` viewed as a character sequence: the code
units of the string, each lowercased. -/
def jsLower (s : String) : List Char := s.data.map Char.toLower

/-- The comparator of `renderTableRows`:
`valA = (a[key] ?? '').toString().toLowerCase()` and likewise for `valB`;
return `-1 * dir`, `1 * dir`, or `0` by JavaScript string comparison,
which is lexicographic on code units (modelled on the character list). -/
def jsCompare (key : SortKey) (asc : Bool) (a b : WDevice) : Int :=
  let dir : Int := if asc then 1 else -1
  let valA := jsLower (sortField key a)
  let valB := jsLower (sortField key b)
  if valA < valB then -1 * dir
  else if valB < valA then 1 * dir
  else 0

/-- `[...devices].sort(comparator)`: JavaScript's sort is stable, which
insertion sort on the comparator's non-positive relation reproduces. -/
def sortDevices (key : SortKey) (asc : Bool) (devices : List WDevice) :
    List WDevice :=
  List.insertionSort (fun a b => jsCompare key asc a b ≤ 0) devices

theorem jsCompare_asc_le_iff (key : SortKey) (a b : WDevice) :
    jsCompare key true a b ≤ 0 ↔
      jsLower (sortField key a) ≤ jsLower (sortField key b) := by
  unfold jsCompare
  rcases lt_trichotomy (jsLower (sortField key a)) (jsLower (sortField key b))
    with h | h | h
  · rw [if_pos h]
    exact ⟨fun _ => le_of_lt h, fun _ => by norm_num⟩
  · rw [if_neg (by simp [h]), if_neg (by simp [h])]
    exact ⟨fun _ => le_of_eq h, fun _ => le_refl 0⟩
  · rw [if_neg (asymm h), if_pos h]
    exact ⟨fun hc => absurd hc (by norm_num), fun hc => absurd hc (not_le.mpr h)⟩

theorem jsCompare_desc_le_iff (key : SortKey) (a b : WDevice) :
    jsCompare key false a b ≤ 0 ↔
      jsLower (sortField key b) ≤ jsLower (sortField key a) := by
  unfold jsCompare
  rcases lt_trichotomy (jsLower (sortField key a)) (jsLower (sortField key b))
    with h | h | h
  · rw [if_pos h]
    exact ⟨fun hc => absurd hc (by norm_num), fun hc => absurd hc (not_le.mpr h)⟩
  · rw [if_neg (by simp [h]), if_neg (by simp [h])]
    exact ⟨fun _ => le_of_eq h.symm, fun _ => le_refl 0⟩
  · rw [if_neg (asymm h), if_pos h]
    exact ⟨fun _ => le_of_lt h, fun _ => by norm_num⟩

/-- C7: for every sort key the workspace sort orders devices by
case-insensitive lexicographic comparison of the string form of the
chosen field (a permutation of the input, sorted ascending or
descending); in particular addresses "2", "10", "1" sort ascending to
"1", "10", "2" (string order, not numeric), and comparison is
case-insensitive ("a" sorts before "B"). -/
theorem sort_is_lexicographic :
    (∀ (key : SortKey) (asc : Bool) (devices : List WDevice),
        (sortDevices key asc devices).Perm devices) ∧
    (∀ (key : SortKey) (devices : List WDevice),
        List.Sorted
          (fun a b => jsLower (sortField key a) ≤ jsLower (sortField key b))
          (sortDevices key true devices)) ∧
    (∀ (key : SortKey) (devices : List WDevice),
        List.Sorted
          (fun a b => jsLower (sortField key b) ≤ jsLower (sortField key a))
          (sortDevices key false devices)) ∧
    (sortDevices .address true
        [⟨"", "2", "", "", "", ""⟩, ⟨"", "10", "", "", "", ""⟩,
         ⟨"", "1", "", "", "", ""⟩]).map (fun d => d.address)
      = ["1", "10", "2"] ∧
    (sortDevices .address false
        [⟨"", "2", "", "", "", ""⟩, ⟨"", "10", "", "", "", ""⟩,
         ⟨"", "1", "", "", "", ""⟩]).map (fun d => d.address)
      = ["2", "10", "1"] ∧
    (sortDevices .messages true
        [⟨"", "", "", "", "", "B"⟩, ⟨"", "", "", "", "", "a"⟩]).map
        (fun d => d.messages)
      = ["a", "B"] := by
  refine ⟨?_, ?_, ?_, by decide, by decide, by decide⟩
  · intro key asc devices
    exact List.perm_insertionSort _ devices
  · intro key devices
    haveI : IsTotal WDevice (fun a b => jsCompare key true a b ≤ 0) :=
      ⟨fun a b => by
        rw [jsCompare_asc_le_iff, jsCompare_asc_le_iff]
        exact le_total _ _⟩
    haveI : IsTrans WDevice (fun a b => jsCompare key true a b ≤ 0) :=
      ⟨fun a b c hab hbc => by
        rw [jsCompare_asc_le_iff] at hab hbc ⊢
        exact le_trans hab hbc⟩
    have hs := List.sorted_insertionSort
      (fun a b => jsCompare key true a b ≤ 0) devices
    exact hs.imp (fun hab => (jsCompare_asc_le_iff key _ _).mp hab)
  · intro key devices
    haveI : IsTotal WDevice (fun a b => jsCompare key false a b ≤ 0) :=
      ⟨fun a b => by
        rw [jsCompare_desc_le_iff, jsCompare_desc_le_iff]
        exact le_total _ _⟩
    haveI : IsTrans WDevice (fun a b => jsCompare key false a b ≤ 0) :=
      ⟨fun a b c hab hbc => by
        rw [jsCompare_desc_le_iff] at hab hbc ⊢
        exact le_trans hbc hab⟩
    have hs := List.sorted_insertionSort
      (fun a b => jsCompare key false a b ≤ 0) devices
    exact hs.imp (fun hab => (jsCompare_desc_le_iff key _ _).mp hab)

end DeviceChecklistHub

namespace DeviceChecklistHub

/-- A JSON scalar as handled by `toIntOrNull` (numbers are integral in
every payload the admin page accepts, so finiteness is automatic). -/
inductive JVal where
  | null
  | num (n : Int)
  | str (s : String)
deriving Repr, DecidableEq

/-- `parseInt(trimmed, 10)`: an optional sign followed by a longest run
of decimal digits; no digits means `NaN` (here `none`). -/
def jsParseInt (s : String) : Option Int :=
  let signed : Int × List Char :=
    match s.data with
    | '-' :: r => (-1, r)
    | '+' :: r => (1, r)
    | r => (1, r)
  let ds := signed.2.takeWhile Char.isDigit
  if ds.isEmpty then none
  else some (signed.1 *
    Int.ofNat (ds.foldl (fun a c => a * 10 + (c.toNat - '0'.toNat)) 0))

/-- `toIntOrNull`: `null`/`undefined` stay null, finite numbers pass
through, strings are trimmed, with `""` and `"N/A"` treated as null and
everything else handed to `parseInt`. -/
def toIntOrNull : JVal → Option Int
  | .null => none
  | .num n => some n
  | .str s =>
    let trimmed := s.trim
    if trimmed = "" || trimmed.toUpper = "N/A" then none
    else jsParseInt trimmed

structure Company where
  id : Nat
  name : String
deriving Repr, DecidableEq

structure ChecklistRow where
  id : Nat
  company_id : Nat
  name : String
  year : Int
deriving Repr, DecidableEq

structure DeviceRow where
  checklist_id : Nat
  loop : Option Int
  address : Option Int
  model : Option String
  device_type : Option String
  serial_number : Option String
  messages : Option String
deriving Repr, DecidableEq

/-- The hosted store as seen by the admin page: three tables plus a
generator for fresh row ids. -/
structure Database where
  companies : List Company
  checklists : List ChecklistRow
  devices : List DeviceRow
  nextId : Nat
deriving Repr, DecidableEq

/-- One entry of a pasted checklist JSON's `devices` array. -/
structure InputDevice where
  loop : JVal
  address : JVal
  model : Option String
  deviceType : Option String
  serialNumber : Option String
  messages : Option String
deriving Repr, DecidableEq

/-- A pasted checklist JSON object (absent fields are `none`; a
non-array `devices` is also `none`, matching the `Array.isArray` check). -/
structure ChecklistObject where
  key : Option String
  name : Option String
  location : Option String
  devices : Option (List InputDevice)
deriving Repr, DecidableEq

/-- JavaScript `||` on optional strings: the empty string is falsy. -/
def strTruthy : Option String → Option String
  | none => none
  | some s => if s = "" then none else some s

/-- `getOrCreateCompanyByName`: look the company up by exact name
(`maybeSingle`), inserting a fresh row when absent. -/
def getOrCreateCompanyByName (db : Database) (name : String) :
    Database × Company :=
  match db.companies.find? (fun c => c.name == name) with
  | some c => (db, c)
  | none =>
    let c : Company := ⟨db.nextId, name⟩
    ({ db with companies := db.companies ++ [c], nextId := db.nextId + 1 }, c)

/-- `getChecklistByName`: lookup by `(company_id, name)`. -/
def getChecklistByName (db : Database) (companyId : Nat)
    (checklistName : String) : Option ChecklistRow :=
  db.checklists.find?
    (fun cl => cl.company_id == companyId && cl.name == checklistName)

/-- `createChecklist`: insert with the given year or the current one. -/
def createChecklist (db : Database) (companyId : Nat) (checklistName : String)
    (yearArg : Option Int) (currentYear : Int) : Database × ChecklistRow :=
  let cl : ChecklistRow :=
    ⟨db.nextId, companyId, checklistName, yearArg.getD currentYear⟩
  ({ db with checklists := db.checklists ++ [cl], nextId := db.nextId + 1 }, cl)

/-- The row produced for one payload device (`rows = devicesArray.map(...)`). -/
def mapDeviceRow (checklistId : Nat) (d : InputDevice) : DeviceRow :=
  ⟨checklistId, toIntOrNull d.loop, toIntOrNull d.address,
   d.model, d.deviceType, d.serialNumber, d.messages⟩

/-- `replaceDevicesForChecklist`: delete every device row of the
checklist, then (when the payload is non-empty) insert the mapped batch. -/
def replaceDevicesForChecklist (db : Database) (checklistId : Nat)
    (devicesArray : List InputDevice) : Database :=
  let afterDelete :=
    { db with devices := db.devices.filter (fun d => d.checklist_id != checklistId) }
  if devicesArray.isEmpty then afterDelete
  else
    { afterDelete with
      devices := afterDelete.devices ++ devicesArray.map (mapDeviceRow checklistId) }

/-- `upsertChecklistFromObject`: resolve company and checklist names with
JavaScript `||` fallbacks, get or create the company, look the checklist
up, honour `skip` mode, create the checklist when missing, and replace
its devices. Returns the resulting store and the checklist id. -/
def upsertChecklistFromObject (db : Database) (obj : ChecklistObject)
    (existingMode : String) (currentYear : Int) :
    Except String (Database × Nat) :=
  let devicesArray := obj.devices.getD []
  match strTruthy obj.name <|> strTruthy obj.key with
  | none => .error "Missing name (or key) on checklist object."
  | some companyName =>
    let checklistName :=
      (strTruthy obj.location <|> strTruthy obj.name <|> strTruthy obj.key).getD
        "Unnamed Checklist"
    let g := getOrCreateCompanyByName db companyName
    match getChecklistByName g.1 g.2.id checklistName with
    | some checklist =>
      if existingMode == "skip" then .ok (g.1, checklist.id)
      else
        .ok (replaceDevicesForChecklist g.1 checklist.id devicesArray,
          checklist.id)
    | none =>
      let c := createChecklist g.1 g.2.id checklistName none currentYear
      .ok (replaceDevicesForChecklist c.1 c.2.id devicesArray, c.2.id)

/-- `deleteChecklistAndDevices` after the confirmation dialog: delete the
checklist's devices, delete the checklist, and, when a company id is
present and the company has no remaining checklists, delete the company. -/
def deleteChecklistAndDevices (db : Database) (checklistId : Nat)
    (companyId : Option Nat) : Database :=
  let afterDevices :=
    { db with devices := db.devices.filter (fun d => d.checklist_id != checklistId) }
  let afterChecklist :=
    { afterDevices with
      checklists := afterDevices.checklists.filter (fun cl => cl.id != checklistId) }
  match companyId with
  | none => afterChecklist
  | some cid =>
    let remaining := afterChecklist.checklists.filter (fun cl => cl.company_id == cid)
    if remaining.isEmpty then
      { afterChecklist with
        companies := afterChecklist.companies.filter (fun c => c.id != cid) }
    else afterChecklist

end DeviceChecklistHub

namespace DeviceChecklistHub

/-- After a replace, the device rows of the target checklist are exactly
the mapped payload batch — one row per payload device. -/
theorem replace_count (db : Database) (cid : Nat)
    (devs : List InputDevice) :
    ((replaceDevicesForChecklist db cid devs).devices.filter
      (fun d => d.checklist_id == cid)).length = devs.length := by
  have hdel : ((db.devices.filter (fun d => d.checklist_id != cid)).filter
      (fun d => d.checklist_id == cid)) = [] := by
    rw [List.filter_filter]
    apply List.filter_eq_nil_iff.mpr
    intro a _
    by_cases h : a.checklist_id = cid <;> simp [h]
  have hmap : ((devs.map (mapDeviceRow cid)).filter
      (fun d => d.checklist_id == cid)) = devs.map (mapDeviceRow cid) := by
    apply List.filter_eq_self.mpr
    intro a ha
    obtain ⟨x, _, rfl⟩ := List.mem_map.mp ha
    simp [mapDeviceRow]
  unfold replaceDevicesForChecklist
  by_cases h : devs.isEmpty
  · rw [if_pos h]
    have hnil : devs = [] := List.isEmpty_iff.mp h
    subst hnil
    simp [hdel]
  · rw [if_neg h]
    show (((db.devices.filter (fun d => d.checklist_id != cid))
        ++ devs.map (mapDeviceRow cid)).filter
        (fun d => d.checklist_id == cid)).length = devs.length
    rw [List.filter_append, hdel, hmap]
    simp

/-- The sample payload of the idempotence scenario:
`{name: "Acme", location: "Fire Inspection",
devices: [{loop: 1, address: 1, serialNumber: "S1", messages: "Lobby"}]}`. -/
def acmeObject : ChecklistObject :=
  ⟨none, some "Acme", some "Fire Inspection",
   some [⟨.num 1, .num 1, none, none, some "S1", some "Lobby"⟩]⟩

def emptyDatabase : Database := ⟨[], [], [], 0⟩

/-- C8: every successful replace-mode upload leaves exactly one device
row per payload device for the returned checklist id — so running the
same upload twice is idempotent on the devices collection; concretely,
uploading the Acme payload twice from an empty store returns the same
checklist id both times and leaves exactly one device row in total. -/
theorem replace_upload_idempotent :
    (∀ (db : Database) (obj : ChecklistObject) (currentYear : Int)
        (db' : Database) (cid : Nat),
      upsertChecklistFromObject db obj "replace" currentYear = .ok (db', cid) →
      ((db'.devices.filter (fun d => d.checklist_id == cid)).length
        = (obj.devices.getD []).length)) ∧
    ((do
        let r1 ← upsertChecklistFromObject emptyDatabase acmeObject "replace" 2025
        let r2 ← upsertChecklistFromObject r1.1 acmeObject "replace" 2025
        pure (r2.2 == r1.2,
          (r2.1.devices.filter (fun d => d.checklist_id == r1.2)).length,
          r2.1.devices.length)) : Except String (Bool × Nat × Nat))
      = .ok (true, 1, 1) := by
  constructor
  · intro db obj currentYear db' cid h
    simp only [upsertChecklistFromObject] at h
    cases hname : strTruthy obj.name <|> strTruthy obj.key with
    | none =>
      rw [hname] at h
      simp at h
    | some companyName =>
      rw [hname] at h
      dsimp only at h
      cases hcl : getChecklistByName (getOrCreateCompanyByName db companyName).1
          (getOrCreateCompanyByName db companyName).2.id
          ((strTruthy obj.location <|> some companyName).getD
            "Unnamed Checklist") with
      | some checklist =>
        rw [hcl] at h
        dsimp only at h
        simp only [show (("replace" == "skip") = true) = False from by simp,
          if_false, Except.ok.injEq, Prod.mk.injEq] at h
        obtain ⟨rfl, rfl⟩ := h
        exact replace_count _ _ _
      | none =>
        rw [hcl] at h
        dsimp only at h
        simp only [Except.ok.injEq, Prod.mk.injEq] at h
        obtain ⟨rfl, rfl⟩ := h
        exact replace_count _ _ _
  · rfl

theorem replace_upload_idempotent_witness :
    upsertChecklistFromObject emptyDatabase acmeObject "replace" 2025
      = .ok (⟨[⟨0, "Acme"⟩], [⟨1, 0, "Fire Inspection", 2025⟩],
          [⟨1, some 1, some 1, none, none, some "S1", some "Lobby"⟩], 2⟩, 1) ∧
    ((⟨[⟨0, "Acme"⟩], [⟨1, 0, "Fire Inspection", 2025⟩],
        [⟨1, some 1, some 1, none, none, some "S1", some "Lobby"⟩], 2⟩
      : Database).devices.filter (fun d => d.checklist_id == 1)).length
      = (acmeObject.devices.getD []).length := by
  refine ⟨rfl, ?_⟩
  exact replace_upload_idempotent.1 emptyDatabase acmeObject 2025
    ⟨[⟨0, "Acme"⟩], [⟨1, 0, "Fire Inspection", 2025⟩],
     [⟨1, some 1, some 1, none, none, some "S1", some "Lobby"⟩], 2⟩ 1 rfl

/-- C9: after deleting a checklist and its devices, the owning company
row is removed exactly when the company has no remaining checklists, and
is left intact when at least one other checklist remains. -/
theorem delete_checklist_company_cleanup (db : Database) (clid cid : Nat) :
    (((deleteChecklistAndDevices db clid (some cid)).checklists.filter
        (fun cl => cl.company_id == cid)) = [] →
      (deleteChecklistAndDevices db clid (some cid)).companies
        = db.companies.filter (fun c => c.id != cid)) ∧
    (((deleteChecklistAndDevices db clid (some cid)).checklists.filter
        (fun cl => cl.company_id == cid)) ≠ [] →
      (deleteChecklistAndDevices db clid (some cid)).companies
        = db.companies) := by
  have hd : deleteChecklistAndDevices db clid (some cid)
      = (if ((db.checklists.filter (fun cl => cl.id != clid)).filter
            (fun cl => cl.company_id == cid)).isEmpty = true
         then ⟨db.companies.filter (fun c => c.id != cid),
               db.checklists.filter (fun cl => cl.id != clid),
               db.devices.filter (fun d => d.checklist_id != clid), db.nextId⟩
         else ⟨db.companies,
               db.checklists.filter (fun cl => cl.id != clid),
               db.devices.filter (fun d => d.checklist_id != clid), db.nextId⟩) := rfl
  by_cases hrem : ((db.checklists.filter (fun cl => cl.id != clid)).filter
      (fun cl => cl.company_id == cid)).isEmpty = true
  · rw [hd, if_pos hrem]
    constructor
    · intro _
      rfl
    · intro hne
      exact absurd (List.isEmpty_iff.mp hrem) hne
  · rw [hd, if_neg hrem]
    constructor
    · intro heq
      exact absurd (List.isEmpty_iff.mpr heq) hrem
    · intro _
      rfl

/-- A store whose single company owns only the checklist about to be
deleted. -/
def soleChecklistStore : Database :=
  ⟨[⟨0, "A"⟩], [⟨1, 0, "only", 2024⟩], [⟨1, some 1, none, none, none, none, none⟩], 2⟩

/-- A store whose single company owns a second checklist besides the one
about to be deleted. -/
def twoChecklistStore : Database :=
  ⟨[⟨0, "A"⟩], [⟨1, 0, "x", 2024⟩, ⟨2, 0, "y", 2024⟩], [], 3⟩

theorem delete_checklist_company_cleanup_witness :
    ((deleteChecklistAndDevices soleChecklistStore 1 (some 0)).checklists.filter
      (fun cl => cl.company_id == 0)) = [] ∧
    (deleteChecklistAndDevices soleChecklistStore 1 (some 0)).companies
      = soleChecklistStore.companies.filter (fun c => c.id != 0) ∧
    soleChecklistStore.companies.filter (fun c => c.id != 0) = [] ∧
    ((deleteChecklistAndDevices twoChecklistStore 1 (some 0)).checklists.filter
      (fun cl => cl.company_id == 0)) ≠ [] ∧
    (deleteChecklistAndDevices twoChecklistStore 1 (some 0)).companies
      = twoChecklistStore.companies := by
  have h1 := delete_checklist_company_cleanup soleChecklistStore 1 0
  have h2 := delete_checklist_company_cleanup twoChecklistStore 1 0
  exact ⟨by decide, h1.1 (by decide), by decide, by decide, h2.2 (by decide)⟩

end DeviceChecklistHub
